import Mathlib

/-!
Shallow embedding of `src/budget_analyzer.py`: a `Transaction` record class and
a `BudgetAnalyzer` over a list of transactions.  Python floats are embedded as
exact rationals (`ℚ`); Python dicts (insertion-ordered, as the code relies on)
are embedded as insertion-ordered association lists; the `ZeroDivisionError`
that `average_daily_spending` can raise is embedded as `Option`.
-/

namespace Budget

/-- Calendar date.  `datetime.strptime(date, "%Y-%m-%d")` always produces a
midnight timestamp, so a parsed `datetime` value is fully determined by its
calendar date and is embedded as one; equality of the stored `datetime`
objects coincides with equality of these triples. -/
structure Date where
  year : Nat
  month : Nat
  day : Nat
deriving DecidableEq

/-- Zero-padding to two digits, as in the rendering of `datetime.date()`. -/
def pad2 (n : Nat) : String :=
  if n < 10 then "0" ++ toString n else toString n

/-- Zero-padding to four digits, as in the rendering of `datetime.date()`. -/
def pad4 (n : Nat) : String :=
  if n < 10 then "000" ++ toString n
  else if n < 100 then "00" ++ toString n
  else if n < 1000 then "0" ++ toString n
  else toString n

/-- Embedding of `self.date.date()` interpolated into an f-string: the ISO `YYYY-MM-DD`
form with no time component. -/
def Date.render (d : Date) : String :=
  pad4 d.year ++ "-" ++ pad2 d.month ++ "-" ++ pad2 d.day

/-- Text of an amount interpolated into an f-string.  The exact digit string
Python produces for a float is outside this embedding; every claim below that
talks about rendered strings depends only on the literal text surrounding the
interpolated amount, never on its digits, so any fixed injective rendering of
the rational serves. -/
def showAmount (q : ℚ) : String := toString q

/-- The Python class `Transaction`: `date`, `amount` and `category` are set at
construction; `description` is a dynamically added attribute, absent until
`transaction_description` assigns it, hence an `Option` here. -/
structure Transaction where
  date : Date
  amount : ℚ
  category : String
  description : Option String := none
deriving DecidableEq

/-- Embedding of `Transaction.is_expense`: `self.amount < 0`. -/
def Transaction.is_expense (t : Transaction) : Bool :=
  t.amount < 0

/-- Embedding of `Transaction.__repr__`: the f-string
`"<Transaction " + amount + " " + category + " on " + date + ">"`. -/
def Transaction.render (t : Transaction) : String :=
  "<Transaction " ++ showAmount t.amount ++ " " ++ t.category ++ " on " ++
    t.date.render ++ ">"

/-- One Python dict update `d[k] = d.get(k, 0) + v` on an insertion-ordered
association list: an existing key keeps its position and has `v` added to its
value; a new key is appended at the end with value `0 + v = v`. -/
def bump {κ β : Type} [DecidableEq κ] [Add β] :
    List (κ × β) → κ → β → List (κ × β)
  | [], k, v => [(k, v)]
  | (k', v') :: rest, k, v =>
    if k' = k then (k', v' + v) :: rest else (k', v') :: bump rest k v

/-- Embedding of `BudgetAnalyzer.total_spent`:
`sum(t.amount for t in self.transactions if t.is_expense())`. -/
def total_spent (ts : List Transaction) : ℚ :=
  ((ts.filter (fun t => t.is_expense)).map (fun t => t.amount)).sum

/-- Embedding of `BudgetAnalyzer.total_earned`:
`sum(t.amount for t in self.transactions if not t.is_expense())`. -/
def total_earned (ts : List Transaction) : ℚ :=
  ((ts.filter (fun t => !t.is_expense)).map (fun t => t.amount)).sum

/-- Embedding of `BudgetAnalyzer.spending_by_category`: the loop
`for t in transactions: if t.is_expense(): summary[t.category] = summary.get(t.category, 0) + abs(t.amount)`. -/
def spending_by_category (ts : List Transaction) : List (String × ℚ) :=
  ts.foldl
    (fun summary t =>
      if t.is_expense then bump summary t.category |t.amount| else summary)
    []

/-- The dict `avg_daily` built by `BudgetAnalyzer.average_daily_spending`:
`for t in transactions: if t.is_expense(): avg_daily[t.date] = avg_daily.get(t.date, 0) + abs(t.amount)`. -/
def avg_daily (ts : List Transaction) : List (Date × ℚ) :=
  ts.foldl
    (fun m t => if t.is_expense then bump m t.date |t.amount| else m)
    []

/-- Embedding of `BudgetAnalyzer.average_daily_spending`:
`sum(avg_daily.values()) / len(avg_daily)`, which raises `ZeroDivisionError`
when the dict is empty — embedded as `none`. -/
def average_daily_spending (ts : List Transaction) : Option ℚ :=
  let m := avg_daily ts
  if m.length = 0 then none
  else some (((m.map Prod.snd).sum) / (m.length : ℚ))

/-- Embedding of `BudgetAnalyzer.Number_of_transactions_per_category`: the loop
`for t in transactions: categories[t.category] = categories.get(t.category, 0) + 1`
(no expense filter: every transaction counts). -/
def Number_of_transactions_per_category (ts : List Transaction) :
    List (String × ℕ) :=
  ts.foldl (fun categories t => bump categories t.category 1) []

/-- The per-transaction mutation inside `transaction_description`:
`t.description = 'Debit'` when the transaction is an expense, else
`t.description = 'Credit'`. -/
def describeOne (t : Transaction) : Transaction :=
  if t.is_expense then { t with description := some "Debit" }
  else { t with description := some "Credit" }

/-- Embedding of `BudgetAnalyzer.transaction_description`: for each transaction, assign its
`description`, then append the f-string
`"Transaction " + amount + " " + category + " on " + date + " - " + description`.
The Python loop mutates the transactions of the analyzer in place; the
embedding passes the state explicitly, returning the list of strings together
with the updated transaction list. -/
def transaction_description : List Transaction → List String × List Transaction
  | [] => ([], [])
  | t :: rest =>
    let t' := describeOne t
    let r := transaction_description rest
    (("Transaction " ++ showAmount t'.amount ++ " " ++ t'.category ++ " on " ++
        t'.date.render ++ " - " ++ t'.description.getD "") :: r.1,
      t' :: r.2)

/-- State-passing view of `total_spent`: its loop only reads transaction
fields (no assignment occurs in its body), so the faithful state-passing
embedding returns the analyzer's transaction list unchanged next to the
value. -/
def total_spent_st (ts : List Transaction) : ℚ × List Transaction :=
  (total_spent ts, ts)

/-- State-passing view of `total_earned`; its loop only reads fields. -/
def total_earned_st (ts : List Transaction) : ℚ × List Transaction :=
  (total_earned ts, ts)

/-- State-passing view of `spending_by_category`; its loop only reads
fields. -/
def spending_by_category_st (ts : List Transaction) :
    List (String × ℚ) × List Transaction :=
  (spending_by_category ts, ts)

/-- State-passing view of `average_daily_spending`; its loop only reads
fields. -/
def average_daily_spending_st (ts : List Transaction) :
    Option ℚ × List Transaction :=
  (average_daily_spending ts, ts)

/-- State-passing view of `Number_of_transactions_per_category`; its loop only
reads fields. -/
def transactions_per_category_st (ts : List Transaction) :
    List (String × ℕ) × List Transaction :=
  (Number_of_transactions_per_category ts, ts)

/-- The construction-time fields of a transaction (everything except the
mutable `description`). -/
def coreFields (t : Transaction) : Date × ℚ × String :=
  (t.date, t.amount, t.category)

/-- Spec-side definition, following the spec's words for
`average_daily_spending`: the distinct calendar dates that have at least one
expense. -/
def expenseDates (ts : List Transaction) : Finset Date :=
  ((ts.filter (fun t => t.is_expense)).map (fun t => t.date)).toFinset

/-- Spec-side definition: the sum of absolute amounts of the expense
transactions that fall on day `d`. -/
def dayTotal (ts : List Transaction) (d : Date) : ℚ :=
  (((ts.filter (fun t => t.is_expense)).filter (fun t => t.date = d)).map
    (fun t => |t.amount|)).sum

/-- Spec-side definition, following the spec's words: group expense
transactions by calendar date, sum absolute amounts within each date, then
average those per-date sums across all distinct dates that have at least one
expense. -/
def specAverageDailySpending (ts : List Transaction) : ℚ :=
  (∑ d ∈ expenseDates ts, dayTotal ts d) / ((expenseDates ts).card : ℚ)

/-- First transaction of the spec's worked scenario:
`("2024-05-01", -50.25, "groceries")`. -/
def tx1 : Transaction :=
  { date := ⟨2024, 5, 1⟩, amount := -50.25, category := "groceries" }

/-- Second transaction of the spec's worked scenario:
`("2024-05-02", 2000.00, "salary")`. -/
def tx2 : Transaction :=
  { date := ⟨2024, 5, 2⟩, amount := 2000.00, category := "salary" }

/-- Third transaction of the spec's worked scenario:
`("2024-05-01", -10.00, "groceries")`. -/
def tx3 : Transaction :=
  { date := ⟨2024, 5, 1⟩, amount := -10.00, category := "groceries" }

/-- The spec's worked scenario input list. -/
def scen : List Transaction := [tx1, tx2, tx3]

section BumpLemmas

variable {κ : Type} [DecidableEq κ]

/-- One dict update adds its value to the total of the dict's values. -/
theorem bump_snd_sum {β : Type} [AddCommMonoid β]
    (l : List (κ × β)) (k : κ) (v : β) :
    ((bump l k v).map Prod.snd).sum = (l.map Prod.snd).sum + v := by
  induction l with
  | nil => simp [bump]
  | cons p rest ih =>
    obtain ⟨k', v'⟩ := p
    by_cases h : k' = k
    · subst h
      simp only [bump, if_pos rfl, List.map_cons, List.sum_cons]
      exact add_right_comm v' v _
    · simp only [bump, if_neg h, List.map_cons, List.sum_cons, ih]
      exact (add_assoc _ _ _).symm

/-- Keys after one dict update: the old keys plus the updated key. -/
theorem bump_fst_mem {β : Type} [Add β]
    (l : List (κ × β)) (k : κ) (v : β) (a : κ) :
    a ∈ (bump l k v).map Prod.fst ↔ a ∈ l.map Prod.fst ∨ a = k := by
  induction l with
  | nil => simp [bump]
  | cons p rest ih =>
    obtain ⟨k', v'⟩ := p
    by_cases h : k' = k
    · subst h
      have hb : bump ((k', v') :: rest) k' v = (k', v' + v) :: rest := by
        simp [bump]
      rw [hb]
      simp only [List.map_cons, List.mem_cons]
      tauto
    · simp only [bump, if_neg h, List.map_cons, List.mem_cons, ih]
      tauto

/-- Key set after one dict update, as a `Finset`. -/
theorem bump_fst_toFinset {β : Type} [Add β]
    (l : List (κ × β)) (k : κ) (v : β) :
    ((bump l k v).map Prod.fst).toFinset =
      insert k (l.map Prod.fst).toFinset := by
  ext a
  simp only [List.mem_toFinset, bump_fst_mem, Finset.mem_insert]
  tauto

/-- A dict update never duplicates a key: an existing key is updated in
place, a new key is appended once. -/
theorem bump_fst_nodup {β : Type} [Add β]
    (l : List (κ × β)) (k : κ) (v : β)
    (h : (l.map Prod.fst).Nodup) : ((bump l k v).map Prod.fst).Nodup := by
  induction l with
  | nil => simp [bump]
  | cons p rest ih =>
    obtain ⟨k', v'⟩ := p
    simp only [List.map_cons, List.nodup_cons] at h
    by_cases hk : k' = k
    · subst hk
      have hb : bump ((k', v') :: rest) k' v = (k', v' + v) :: rest := by
        simp [bump]
      rw [hb, List.map_cons, List.nodup_cons]
      exact h
    · simp only [bump, if_neg hk, List.map_cons, List.nodup_cons]
      refine ⟨?_, ih h.2⟩
      rw [bump_fst_mem]
      push_neg
      exact ⟨h.1, hk⟩

/-- Value total of the dict built by a filtered accumulation loop: the sum of
the contributions of the elements that pass the filter. -/
theorem foldl_bump_sum {α β : Type} [AddCommMonoid β]
    (P : α → Bool) (key : α → κ) (val : α → β) (ts : List α) :
    ∀ init : List (κ × β),
      ((ts.foldl
          (fun acc t => if P t then bump acc (key t) (val t) else acc)
          init).map Prod.snd).sum
        = (init.map Prod.snd).sum + ((ts.filter P).map val).sum := by
  induction ts with
  | nil => intro init; simp
  | cons t ts ih =>
    intro init
    by_cases h : P t
    · simp only [List.foldl_cons, h, if_true, List.filter_cons, List.map_cons,
        List.sum_cons, ih, bump_snd_sum]
      exact add_assoc _ _ _
    · simp only [List.foldl_cons, h, if_false, List.filter_cons, ih,
        Bool.false_eq_true]

/-- Key set of the dict built by a filtered accumulation loop. -/
theorem foldl_bump_keys {α β : Type} [AddCommMonoid β]
    (P : α → Bool) (key : α → κ) (val : α → β) (ts : List α) :
    ∀ init : List (κ × β),
      ((ts.foldl
          (fun acc t => if P t then bump acc (key t) (val t) else acc)
          init).map Prod.fst).toFinset
        = (init.map Prod.fst).toFinset ∪ ((ts.filter P).map key).toFinset := by
  induction ts with
  | nil => intro init; simp
  | cons t ts ih =>
    intro init
    by_cases h : P t
    · simp only [List.foldl_cons, h, if_true, List.filter_cons, List.map_cons,
        List.toFinset_cons, ih, bump_fst_toFinset]
      rw [Finset.insert_union, Finset.union_insert]
    · simp only [List.foldl_cons, h, if_false, List.filter_cons, ih,
        Bool.false_eq_true]

/-- The dict built by a filtered accumulation loop has no duplicate keys. -/
theorem foldl_bump_nodup {α β : Type} [AddCommMonoid β]
    (P : α → Bool) (key : α → κ) (val : α → β) (ts : List α) :
    ∀ init : List (κ × β), (init.map Prod.fst).Nodup →
      ((ts.foldl
          (fun acc t => if P t then bump acc (key t) (val t) else acc)
          init).map Prod.fst).Nodup := by
  induction ts with
  | nil => intro init h; simpa using h
  | cons t ts ih =>
    intro init h
    by_cases hP : P t
    · simp only [List.foldl_cons, hP, if_true]
      exact ih _ (bump_fst_nodup _ _ _ h)
    · simp only [List.foldl_cons, hP, if_false, Bool.false_eq_true]
      exact ih _ h

/-- Summing fiberwise over the distinct keys of a list recovers the total
sum: the grouped per-key totals of `f` add up to the ungrouped sum of `f`. -/
theorem sum_fiber {α β : Type} [AddCommMonoid β]
    (key : α → κ) (f : α → β) (l : List α) :
    ∑ d ∈ (l.map key).toFinset,
        ((l.filter (fun x => key x = d)).map f).sum = (l.map f).sum := by
  induction l with
  | nil => simp
  | cons t ts ih =>
    simp only [List.map_cons, List.toFinset_cons]
    have hterm : ∀ d ∈ insert (key t) (ts.map key).toFinset,
        (((t :: ts).filter (fun x => key x = d)).map f).sum
          = (if key t = d then f t else 0)
            + ((ts.filter (fun x => key x = d)).map f).sum := by
      intro d _
      by_cases h : key t = d <;> simp [List.filter_cons, h]
    rw [Finset.sum_congr rfl hterm, Finset.sum_add_distrib,
      Finset.sum_ite_eq, if_pos (Finset.mem_insert_self _ _)]
    have hrest : ∑ d ∈ insert (key t) (ts.map key).toFinset,
        ((ts.filter (fun x => key x = d)).map f).sum
          = ∑ d ∈ (ts.map key).toFinset,
              ((ts.filter (fun x => key x = d)).map f).sum := by
      by_cases hk : key t ∈ (ts.map key).toFinset
      · rw [Finset.insert_eq_self.mpr hk]
      · rw [Finset.sum_insert hk]
        have hnil : ts.filter (fun x => key x = key t) = [] := by
          rw [List.filter_eq_nil_iff]
          intro a ha
          simp only [decide_eq_true_eq]
          intro hkey
          exact hk (List.mem_toFinset.mpr (List.mem_map.mpr ⟨a, ha, hkey⟩))
        rw [hnil]
        simp

    rw [hrest, ih]
    simp

end BumpLemmas

/-- The values of the `avg_daily` dict total the absolute amounts of all
expense transactions. -/
theorem avg_daily_values_sum (ts : List Transaction) :
    ((avg_daily ts).map Prod.snd).sum
      = ((ts.filter (fun t => t.is_expense)).map (fun t => |t.amount|)).sum := by
  have h := foldl_bump_sum (fun t : Transaction => t.is_expense)
    (fun t => t.date) (fun t => |t.amount|) ts []
  simpa [avg_daily] using h

/-- The keys of the `avg_daily` dict are exactly the distinct expense
dates. -/
theorem avg_daily_keys (ts : List Transaction) :
    ((avg_daily ts).map Prod.fst).toFinset = expenseDates ts := by
  have h := foldl_bump_keys (fun t : Transaction => t.is_expense)
    (fun t => t.date) (fun t => |t.amount|) ts []
  simpa [avg_daily, expenseDates] using h

/-- The length of the `avg_daily` dict is the number of distinct expense
dates. -/
theorem avg_daily_length (ts : List Transaction) :
    (avg_daily ts).length = (expenseDates ts).card := by
  have hnd : ((avg_daily ts).map Prod.fst).Nodup :=
    foldl_bump_nodup (fun t : Transaction => t.is_expense)
      (fun t => t.date) (fun t => |t.amount|) ts [] (by simp)
  calc (avg_daily ts).length
      = ((avg_daily ts).map Prod.fst).length := by rw [List.length_map]
    _ = ((avg_daily ts).map Prod.fst).toFinset.card :=
        (List.toFinset_card_of_nodup hnd).symm
    _ = (expenseDates ts).card := by rw [avg_daily_keys]

/-- The values of the `spending_by_category` dict total the absolute amounts
of all expense transactions. -/
theorem spending_values_sum (ts : List Transaction) :
    ((spending_by_category ts).map Prod.snd).sum
      = ((ts.filter (fun t => t.is_expense)).map (fun t => |t.amount|)).sum := by
  have h := foldl_bump_sum (fun t : Transaction => t.is_expense)
    (fun t => t.category) (fun t => |t.amount|) ts []
  simpa [spending_by_category] using h

/-- The values of the per-category count dict total the number of
transactions: every transaction bumps exactly one counter. -/
theorem count_values_sum (ts : List Transaction) :
    ∀ init : List (String × ℕ),
      (((ts.foldl (fun categories t => bump categories t.category 1) init)).map
          Prod.snd).sum
        = (init.map Prod.snd).sum + ts.length := by
  induction ts with
  | nil => intro init; simp
  | cons t ts ih =>
    intro init
    simp only [List.foldl_cons, ih, bump_snd_sum, List.length_cons]
    omega

/-- A list of nonpositive rationals has nonpositive sum. -/
theorem sum_nonpos_of_nonpos (xs : List ℚ) (h : ∀ x ∈ xs, x ≤ 0) :
    xs.sum ≤ 0 := by
  induction xs with
  | nil => simp
  | cons x xs ih =>
    simp only [List.sum_cons]
    have hx := h x (List.mem_cons_self x xs)
    have hxs := ih (fun y hy => h y (List.mem_cons_of_mem x hy))
    linarith

/-- Summing absolute values of a list of nonpositive rationals gives the
absolute value of its sum. -/
theorem sum_abs_of_nonpos (xs : List ℚ) (h : ∀ x ∈ xs, x ≤ 0) :
    (xs.map (fun x => |x|)).sum = |xs.sum| := by
  induction xs with
  | nil => simp
  | cons x xs ih =>
    have hx := h x (List.mem_cons_self x xs)
    have hall : ∀ y ∈ xs, y ≤ 0 := fun y hy => h y (List.mem_cons_of_mem x hy)
    have hxs : xs.sum ≤ 0 := sum_nonpos_of_nonpos xs hall
    simp only [List.map_cons, List.sum_cons, ih hall]
    rw [abs_of_nonpos hx, abs_of_nonpos hxs, abs_of_nonpos (by linarith)]
    ring

/-- Splitting the sum of `f` over a list between the elements that pass a
Boolean test and those that fail it. -/
theorem filter_map_sum_split {α : Type} (p : α → Bool) (f : α → ℚ)
    (l : List α) :
    ((l.filter p).map f).sum + ((l.filter (fun x => !p x)).map f).sum
      = (l.map f).sum := by
  induction l with
  | nil => simp
  | cons a l ih =>
    by_cases h : p a
    · simp only [List.filter_cons, h, if_true, Bool.not_true, if_false,
        List.map_cons, List.sum_cons, Bool.false_eq_true]
      rw [← ih]
      ring
    · simp only [List.filter_cons, h, if_false, Bool.not_false, if_true,
        List.map_cons, List.sum_cons, Bool.false_eq_true]
      rw [← ih]
      ring

/-- Assigning a description leaves the amount unchanged. -/
theorem describeOne_amount (t : Transaction) :
    (describeOne t).amount = t.amount := by
  by_cases h : t.is_expense <;> simp [describeOne, h]

/-- Assigning a description leaves the expense test unchanged. -/
theorem describeOne_is_expense (t : Transaction) :
    (describeOne t).is_expense = t.is_expense := by
  simp [Transaction.is_expense, describeOne_amount]

/-- Assigning a description leaves the construction-time fields unchanged. -/
theorem describeOne_core (t : Transaction) :
    coreFields (describeOne t) = coreFields t := by
  by_cases h : t.is_expense <;> simp [describeOne, h, coreFields]

/-- Assigning a description twice is the same as assigning it once. -/
theorem describeOne_idem (t : Transaction) :
    describeOne (describeOne t) = describeOne t := by
  by_cases h : t.amount < 0
  · simp [describeOne, Transaction.is_expense, h]
  · simp [describeOne, Transaction.is_expense, h]

/-- Running the enrichment a second time, on the state left by the first
run, reproduces the first run's output and state exactly. -/
theorem transaction_description_stable (ts : List Transaction) :
    transaction_description (transaction_description ts).2
      = transaction_description ts := by
  induction ts with
  | nil => rfl
  | cons t rest ih =>
    simp [transaction_description, describeOne_idem, ih]

/-- After the enrichment, every transaction carries the description matching
its own expense test. -/
theorem transaction_description_mem (ts : List Transaction) :
    ∀ t' ∈ (transaction_description ts).2,
      t'.description = some (if t'.is_expense then "Debit" else "Credit") := by
  induction ts with
  | nil => intro t' h; simp [transaction_description] at h
  | cons t rest ih =>
    intro t' h
    simp only [transaction_description, List.mem_cons] at h
    rcases h with h | h
    · subst h
      rw [describeOne_is_expense]
      by_cases hexp : t.is_expense <;> simp [describeOne, hexp]
    · exact ih t' h

/-- Claim C1: for every transaction list containing at least one expense,
`average_daily_spending` returns the arithmetic mean of per-day expense
totals — expense transactions grouped by calendar date, absolute amounts
summed within each date, the per-date sums averaged over the distinct dates
that have at least one expense (the spec-side definition
`specAverageDailySpending`). -/
theorem average_daily_spending_eq_spec (ts : List Transaction)
    (h : ∃ t ∈ ts, t.is_expense) :
    average_daily_spending ts = some (specAverageDailySpending ts) := by
  obtain ⟨t, ht, hexp⟩ := h
  have hmem : t.date ∈ expenseDates ts := by
    rw [expenseDates, List.mem_toFinset, List.mem_map]
    exact ⟨t, List.mem_filter.mpr ⟨ht, hexp⟩, rfl⟩
  have hcard : (expenseDates ts).card ≠ 0 := Finset.card_ne_zero_of_mem hmem
  have hlen : (avg_daily ts).length = (expenseDates ts).card :=
    avg_daily_length ts
  have hne : ¬(avg_daily ts).length = 0 := by rw [hlen]; exact hcard
  have hnum : ((avg_daily ts).map Prod.snd).sum
      = ∑ d ∈ expenseDates ts, dayTotal ts d := by
    rw [avg_daily_values_sum]
    exact (sum_fiber (fun t : Transaction => t.date) (fun t => |t.amount|)
      (ts.filter (fun t => t.is_expense))).symm
  show (if (avg_daily ts).length = 0 then none
      else some (((avg_daily ts).map Prod.snd).sum / ((avg_daily ts).length : ℚ)))
    = some (specAverageDailySpending ts)
  rw [if_neg hne, hnum, hlen]
  rfl

/-- Witness for C1 at a concrete one-expense list. -/
theorem average_daily_spending_eq_spec_witness :
    average_daily_spending
        [{ date := ⟨2024, 5, 1⟩, amount := -2, category := "a" }]
      = some (specAverageDailySpending
        [{ date := ⟨2024, 5, 1⟩, amount := -2, category := "a" }]) :=
  average_daily_spending_eq_spec _ (by decide)

/-- Claim C2: `average_daily_spending` fails with a division error (embedded
as `none`) exactly when the list has no expense transaction; with at least
one expense it returns a value. -/
theorem average_daily_spending_none_iff (ts : List Transaction) :
    average_daily_spending ts = none ↔ ∀ t ∈ ts, t.is_expense = false := by
  have h1 : average_daily_spending ts = none ↔ (avg_daily ts).length = 0 := by
    by_cases h : (avg_daily ts).length = 0
    · show (if (avg_daily ts).length = 0 then none
          else some (((avg_daily ts).map Prod.snd).sum /
            ((avg_daily ts).length : ℚ))) = none ↔ _
      simp [h]
    · show (if (avg_daily ts).length = 0 then none
          else some (((avg_daily ts).map Prod.snd).sum /
            ((avg_daily ts).length : ℚ))) = none ↔ _
      simp [h]
  rw [h1, avg_daily_length, Finset.card_eq_zero, expenseDates]
  simp [List.toFinset_eq_empty_iff, List.map_eq_nil_iff, List.filter_eq_nil_iff]

/-- Claim C3: the spec's worked scenario — for the input list
`[("2024-05-01", -50.25, "groceries"), ("2024-05-02", 2000.00, "salary"),
("2024-05-01", -10.00, "groceries")]` the analyzer returns
`total_spent = -60.25`, `total_earned = 2000.00`,
`spending_by_category = [groceries : 60.25]`,
transactions per category `[groceries : 2, salary : 1]`, and
`average_daily_spending = 60.25`. -/
theorem scenario_values :
    total_spent scen = -60.25 ∧ total_earned scen = 2000 ∧
    spending_by_category scen = [("groceries", 60.25)] ∧
    Number_of_transactions_per_category scen
      = [("groceries", 2), ("salary", 1)] ∧
    average_daily_spending scen = some 60.25 := by
  refine ⟨?_, ?_, ?_, ?_, ?_⟩ <;>
    norm_num [total_spent, total_earned, spending_by_category,
      Number_of_transactions_per_category, average_daily_spending, avg_daily,
      scen, tx1, tx2, tx3, Transaction.is_expense, bump, abs_of_nonneg]

/-- Claim C4: for every transaction list, the values of
`spending_by_category` sum to the absolute value of `total_spent`. -/
theorem spending_by_category_total (ts : List Transaction) :
    ((spending_by_category ts).map Prod.snd).sum = |total_spent ts| := by
  rw [spending_values_sum, total_spent]
  have hall : ∀ x ∈ (ts.filter (fun t => t.is_expense)).map
      (fun t => t.amount), x ≤ 0 := by
    intro x hx
    obtain ⟨t, htf, rfl⟩ := List.mem_map.mp hx
    have h2 := (List.mem_filter.mp htf).2
    simp only [Transaction.is_expense, decide_eq_true_eq] at h2
    linarith
  rw [← sum_abs_of_nonpos _ hall, List.map_map]
  rfl

/-- Claim C5: for every transaction list, the per-category transaction
counts sum to the length of the list — every transaction, expense or
earning, is counted in exactly one category. -/
theorem transactions_per_category_total (ts : List Transaction) :
    ((Number_of_transactions_per_category ts).map Prod.snd).sum
      = ts.length := by
  have h := count_values_sum ts []
  simpa [Number_of_transactions_per_category] using h

/-- Claim C6: for every transaction list, `total_spent ≤ 0` and
`total_earned ≥ 0`; a transaction of amount exactly zero fails the strict
`amount < 0` expense test, so it is counted by `total_earned` and not by
`total_spent`. -/
theorem totals_sign (ts : List Transaction) :
    total_spent ts ≤ 0 ∧ 0 ≤ total_earned ts ∧
      ∀ t ∈ ts, t.amount = 0 → t.is_expense = false := by
  refine ⟨?_, ?_, ?_⟩
  · apply sum_nonpos_of_nonpos
    intro x hx
    obtain ⟨t, htf, rfl⟩ := List.mem_map.mp hx
    have h2 := (List.mem_filter.mp htf).2
    simp only [Transaction.is_expense, decide_eq_true_eq] at h2
    linarith
  · apply List.sum_nonneg
    intro x hx
    obtain ⟨t, htf, rfl⟩ := List.mem_map.mp hx
    have h2 := (List.mem_filter.mp htf).2
    have h3 : ¬t.amount < 0 := by
      simpa [Transaction.is_expense] using h2
    linarith
  · intro t _ h0
    simp [Transaction.is_expense, h0]

/-- Witness for C6 at a concrete zero-amount transaction. -/
theorem totals_sign_witness :
    total_spent [{ date := ⟨2024, 1, 1⟩, amount := 0, category := "x" }] ≤ 0 ∧
    0 ≤ total_earned [{ date := ⟨2024, 1, 1⟩, amount := 0, category := "x" }] ∧
    Transaction.is_expense
        { date := ⟨2024, 1, 1⟩, amount := 0, category := "x" } = false :=
  ⟨(totals_sign [{ date := ⟨2024, 1, 1⟩, amount := 0, category := "x" }]).1,
   (totals_sign [{ date := ⟨2024, 1, 1⟩, amount := 0, category := "x" }]).2.1,
   (totals_sign [{ date := ⟨2024, 1, 1⟩, amount := 0, category := "x" }]).2.2
     { date := ⟨2024, 1, 1⟩, amount := 0, category := "x" } (by decide) rfl⟩

/-- Claim C7, counterexample: the render operation does not return the bare
string `amount category on date` — at a concrete transaction the returned
string differs from that form, because the code wraps it as
`<Transaction ... >`. -/
theorem render_not_bare :
    Transaction.render
        { date := ⟨2024, 5, 1⟩, amount := -50, category := "groceries" }
      ≠ showAmount (-50 : ℚ) ++ " " ++ "groceries" ++ " on "
          ++ Date.render ⟨2024, 5, 1⟩ := by
  decide

/-- Claim C7 as amended: for every transaction, render returns the literal
text `<Transaction ` followed by the amount, a space, the category, the word
`on`, and the calendar date with no time component, closed by `>`. -/
theorem render_format (t : Transaction) :
    t.render = "<Transaction " ++ showAmount t.amount ++ " " ++ t.category
      ++ " on " ++ t.date.render ++ ">" := rfl

/-- Claim C8: running the transaction-description enrichment twice yields
identical output both times (same strings, same transaction state), and
after a run every transaction's description equals `Debit` when it is an
expense and `Credit` otherwise. -/
theorem transaction_description_idem (ts : List Transaction) :
    (transaction_description (transaction_description ts).2).1
        = (transaction_description ts).1 ∧
      (transaction_description (transaction_description ts).2).2
        = (transaction_description ts).2 ∧
      ∀ t' ∈ (transaction_description ts).2,
        t'.description = some (if t'.is_expense then "Debit" else "Credit") :=
  ⟨congrArg Prod.fst (transaction_description_stable ts),
   congrArg Prod.snd (transaction_description_stable ts),
   transaction_description_mem ts⟩

/-- Witness for C8 at a concrete one-expense list. -/
theorem transaction_description_idem_witness :
    (⟨⟨2024, 5, 1⟩, -1, "a", some "Debit"⟩ : Transaction).description
      = some (if (⟨⟨2024, 5, 1⟩, -1, "a", some "Debit"⟩ : Transaction).is_expense
          then "Debit" else "Credit") :=
  (transaction_description_idem
      [⟨⟨2024, 5, 1⟩, -1, "a", none⟩]).2.2
    ⟨⟨2024, 5, 1⟩, -1, "a", some "Debit"⟩ (by decide)

/-- Claim C9: the read-only queries leave the analyzer's transaction
sequence (hence every transaction's date, amount, category and description)
unchanged, and the transaction-description enrichment — the only mutating
operation — changes nothing but the description field: the
construction-time fields of every transaction survive it unchanged, in
order. -/
theorem queries_readonly (ts : List Transaction) :
    (total_spent_st ts).2 = ts ∧ (total_earned_st ts).2 = ts ∧
    (spending_by_category_st ts).2 = ts ∧
    (average_daily_spending_st ts).2 = ts ∧
    (transactions_per_category_st ts).2 = ts ∧
    (transaction_description ts).2.map coreFields = ts.map coreFields := by
  refine ⟨rfl, rfl, rfl, rfl, rfl, ?_⟩
  induction ts with
  | nil => rfl
  | cons t rest ih => simp [transaction_description, describeOne_core, ih]

/-- Claim C10: `total_spent + total_earned` equals the sum of all amounts —
the strict `amount < 0` test partitions the transactions between the two
totals. -/
theorem totals_partition (ts : List Transaction) :
    total_spent ts + total_earned ts = (ts.map (fun t => t.amount)).sum := by
  show ((ts.filter (fun t => t.is_expense)).map (fun t => t.amount)).sum
      + ((ts.filter (fun t => !t.is_expense)).map (fun t => t.amount)).sum
    = (ts.map (fun t => t.amount)).sum
  exact filter_map_sum_split (fun t => t.is_expense) (fun t => t.amount) ts

end Budget
